import Mathlib

/-!
Verification of the Echo chrome extension's session / buffer / sync core.

The JavaScript sources are shallowly embedded: pure functions become Lean
functions, the `chrome.storage` buffer becomes an explicit `List LogEntry`
threaded through the operations, timestamps are naturals (milliseconds since
epoch), and external browser facilities (URL parsing, `Math.random`, the
network) become explicit parameters.  JavaScript truthiness on numbers is
modelled as "not equal to 0" and on strings as "not the empty string".
-/

namespace Echo

/-- The persisted log record, from the object literal built in
`sessionTracker.endSession` (src/unnamed/part_000).  `domain` is the result of
`extractDomain` (`new URL(url).hostname` or `null`), hence an `Option`.
The ISO `timestamp` string is modelled by the clock value used to create it. -/
structure LogEntry where
  url : String
  domain : Option String
  title : String
  description : String
  startTime : Nat
  endTime : Nat
  duration : Nat
  timestamp : Nat
deriving DecidableEq, Repr

-- ============================================
-- utils.js : merge-aware append (appendLogToStorage)
-- ============================================

/-- The merge branch of `appendLogToStorage` (src/utils.js 260-287): sum the
durations, keep the earliest truthy `startTime` and the latest truthy
`endTime`, stamp `timestamp` with the current clock, and backfill
`title`/`description` only when the existing field is empty. -/
def mergeEntry (now : Nat) (existing log : LogEntry) : LogEntry :=
  { existing with
    duration := existing.duration + log.duration,
    startTime :=
      if log.startTime ≠ 0 ∧ (existing.startTime = 0 ∨ log.startTime < existing.startTime)
      then log.startTime else existing.startTime,
    endTime :=
      if log.endTime ≠ 0 ∧ (existing.endTime = 0 ∨ existing.endTime < log.endTime)
      then log.endTime else existing.endTime,
    timestamp := now,
    title := if existing.title = "" ∧ log.title ≠ "" then log.title else existing.title,
    description :=
      if existing.description = "" ∧ log.description ≠ "" then log.description
      else existing.description }

/-- `appendLogToStorage` (src/utils.js 253-301): merge into the first entry
with the same `url` (`findIndex` + in-place update), otherwise push at the
tail. -/
def appendLogToStorage (now : Nat) : List LogEntry → LogEntry → List LogEntry
  | [], log => [log]
  | l :: rest, log =>
    if l.url = log.url then mergeEntry now l log :: rest
    else l :: appendLogToStorage now rest log

-- ============================================
-- utils.js / bufferManager.js : purge, plain append, removal
-- ============================================

/-- `PURGE_PERCENTAGE` (src/config.js): fraction of oldest logs evicted. -/
def PURGE_PERCENTAGE : ℚ := 1 / 10

/-- `checkAndPurgeStorage` (src/utils.js 197-230).  The float estimate
`JSON.stringify(logs).length / 2^20 > STORAGE_QUOTA_MB` is abstracted into the
boolean `overQuota`; when it holds, the oldest `ceil(N * PURGE_PERCENTAGE)`
entries are dropped (`logs.slice(purgeCount)`). -/
def checkAndPurgeStorage (overQuota : Bool) (logs : List LogEntry) : List LogEntry :=
  if overQuota then logs.drop ⌈(logs.length : ℚ) * PURGE_PERCENTAGE⌉.toNat else logs

/-- `bufferManager.addEntry` (src/bufferManager.js 22-43): run the quota
check, then push the entry at the tail.  No merging takes place. -/
def addEntry (overQuota : Bool) (logs : List LogEntry) (log : LogEntry) : List LogEntry :=
  checkAndPurgeStorage overQuota logs ++ [log]

/-- `bufferManager.removeEntries` (src/bufferManager.js 50-70): keep exactly
the positions not listed in `indices`. -/
def removeEntries (indices : List Nat) (logs : List LogEntry) : List LogEntry :=
  (logs.enum.filter (fun p => ¬ indices.contains p.1)).map (·.2)

/-- The buffer-uniqueness invariant claimed by the spec: at most one entry per
distinct `url`. -/
def uniqueUrls (logs : List LogEntry) : Prop :=
  (logs.map (·.url)).Nodup

instance (logs : List LogEntry) : Decidable (uniqueUrls logs) := by
  unfold uniqueUrls; infer_instance

-- ============================================
-- utils.js : sanitizeText
-- ============================================

/-- Scanner for the regex replacement `/<[^>]*>/g` → `""`.  In the first
mode (`none`) characters are copied; a `<` opens the second mode, whose
argument accumulates (reversed) the characters read since that `<`.  A `>`
closes the span and discards it — the regex match `<[^>]*>` runs from a `<`
to the first following `>`.  If the input ends inside the second mode, no
match started at that `<` (no `>` follows it), so the accumulated characters
are emitted verbatim. -/
def stripHtmlAux : Option (List Char) → List Char → List Char
  | none, [] => []
  | some pending, [] => pending.reverse
  | none, c :: rest =>
    if c = '<' then stripHtmlAux (some [c]) rest
    else c :: stripHtmlAux none rest
  | some pending, c :: rest =>
    if c = '>' then stripHtmlAux none rest
    else stripHtmlAux (some (c :: pending)) rest

/-- `text.replace(/<[^>]*>/g, "")` (src/utils.js 154): each maximal
`<`…first-`>` span is removed; a `<` with no later `>` is kept. -/
def stripHtml (l : List Char) : List Char := stripHtmlAux none l

/-- The ASCII part of the JavaScript `\s` character class. -/
def isWs (c : Char) : Bool :=
  c = ' ' || c = '\t' || c = '\n' || c = '\r' || c = '\x0b' || c = '\x0c'

/-- `stripped.replace(/\s+/g, " ")` (src/utils.js 157): every maximal
whitespace run becomes a single space.  The flag records whether the previous
character belonged to a run already rewritten. -/
def collapseWsAux : Bool → List Char → List Char
  | _, [] => []
  | prevWs, c :: rest =>
    if isWs c then
      if prevWs then collapseWsAux true rest
      else ' ' :: collapseWsAux true rest
    else c :: collapseWsAux false rest

/-- `String.prototype.trim`: strip whitespace from both ends. -/
def trimWs (l : List Char) : List Char :=
  ((l.dropWhile isWs).reverse.dropWhile isWs).reverse

/-- The HTML-stripped, whitespace-normalized form computed inside
`sanitizeText` before the length check. -/
def normalizeChars (l : List Char) : List Char :=
  trimWs (collapseWsAux false (stripHtml l))

/-- `sanitizeText` (src/utils.js 150-165).  `none` models a `null`/`undefined`
argument; the falsy guard `if (!text) return ""` also catches the empty
string.  On overflow the code returns
`normalized.substring(0, maxLength) + "..."`. -/
def sanitizeText (text : Option String) (maxLength : Nat := 500) : String :=
  match text with
  | none => ""
  | some t =>
    if t = "" then ""
    else
      let normalized := normalizeChars t.data
      if maxLength < normalized.length then
        String.mk (normalized.take maxLength ++ "...".data)
      else String.mk normalized

-- ============================================
-- config.js / utils.js : blacklist check
-- ============================================

/-- `MIN_DURATION` (src/config.js 19): discard floor in seconds. -/
def MIN_DURATION : Nat := 5

/-- `BLACKLISTED_DOMAINS` (src/config.js 29): the built-in blocklist is
empty; custom domains may be appended at runtime, so the combined list stays
a parameter below. -/
def BLACKLISTED_DOMAINS : List String := []

/-- `isBlacklistedDomain` (src/utils.js 80-88).  `blocked` is the result of
`getAllBlockedDomains()` (built-in list plus cached custom entries).  The
falsy guard returns `true` for `null` (here `none`) and for the empty
string. -/
def isBlacklistedDomain (blocked : List String) : Option String → Bool
  | none => true
  | some d =>
    if d = "" then true
    else blocked.any fun b => d.toLower = b || (d.toLower).endsWith ("." ++ b)

-- ============================================
-- sessionTracker (src/unnamed/part_000) : endSession
-- ============================================

/-- `currentUrl.startsWith("http")` (src/unnamed/part_000 142), written over
the character list: the first four characters are `h`, `t`, `t`, `p`. -/
def startsWithHttp (s : String) : Bool :=
  match s.data with
  | 'h' :: 't' :: 't' :: 'p' :: _ => true
  | _ => false

/-- The session tracker's module-level state (src/unnamed/part_000 20-23). -/
structure SessionState where
  currentTabId : Option Nat
  currentUrl : String
  title : String
  description : String
  lastActiveTime : Nat
deriving DecidableEq, Repr

/-- The reset performed on every exit path of `endSession`: clear the
destination and metadata and restart the activity clock. -/
def resetState (now : Nat) : SessionState :=
  { currentTabId := none, currentUrl := "", title := "", description := "",
    lastActiveTime := now }

/-- `endSession` (src/unnamed/part_000 135-195).  `ed` stands for
`extractDomain` (`new URL(url).hostname`, `none` when parsing throws) and
`redact` for `redactSensitiveUrl`; both wrap browser URL parsing and are kept
abstract.  Durations are in milliseconds; the float comparison
`duration < MIN_DURATION` is exactly `durationMs < MIN_DURATION * 1000`, and
`Math.round(durationMs / 1000)` is `(2 * durationMs + 1000) / 2000` in
integer arithmetic.  Returns the reset state and the emitted entry, `none`
when nothing is persisted. -/
def endSession (ed : String → Option String) (redact : String → String)
    (blocked : List String) (now : Nat) (s : SessionState) :
    SessionState × Option LogEntry :=
  let durationMs := now - s.lastActiveTime
  if s.currentUrl = "" ∨ durationMs < MIN_DURATION * 1000 ∨
      ¬ startsWithHttp s.currentUrl then
    (resetState now, none)
  else
    let domain := ed s.currentUrl
    if isBlacklistedDomain blocked domain then
      (resetState now, none)
    else
      let entry : LogEntry :=
        { url := redact s.currentUrl
          domain := domain
          title := sanitizeText (some s.title) 200
          description := sanitizeText (some s.description) 500
          startTime := s.lastActiveTime
          endTime := now
          duration := (2 * durationMs + 1000) / 2000
          timestamp := now }
      (resetState now, some entry)

-- ============================================
-- utils.js : calculateBackoff
-- ============================================

/-- `Math.round`: floor of `x + 1/2` (JavaScript rounds half up). -/
def roundJS (x : ℚ) : ℤ := ⌊x + 1 / 2⌋

/-- `calculateBackoff` (src/utils.js 330-335).  `u` models the `Math.random()`
draw in `[0, 1)`; the jitter `delay * 0.1 * (u * 2 - 1)` is applied to the
already-capped delay. -/
def calculateBackoff (attempt : Nat) (baseMs maxMs u : ℚ) : ℤ :=
  let delay := min (baseMs * 2 ^ attempt) maxMs
  let jitter := delay * (1 / 10) * (u * 2 - 1)
  roundJS (delay + jitter)

-- ============================================
-- background.js : sendHealthPing
-- ============================================

/-- Outcome of a JavaScript `fetch`: the promise resolves with an HTTP status
(any status, error statuses included) or rejects with a network-level
exception. -/
inductive FetchResult where
  | response (status : Nat)
  | netError
deriving DecidableEq, Repr

/-- The health-report body built in `sendHealthPing` (src/background.js
897-903). -/
structure HealthPayload where
  extensionVersion : String
  platform : String
  arch : String
  errorsEncountered : Nat
  timestamp : Nat
deriving DecidableEq, Repr

/-- `sendHealthPing` (src/background.js 887-921).  Returns the new
`errorCount` and the payload handed to `fetch` (`none` when a precondition
aborts before any request; at most one request is ever issued, there is no
retry).  The code never reads `response.ok` or `response.status`: any
resolved `fetch` reaches the `errorCount = 0` line, and only a rejected
promise lands in the `catch` that leaves `errorCount` unchanged. -/
def sendHealthPing (online : Bool) (apiKey : Option String)
    (version platform arch : String) (now errorCount : Nat)
    (r : FetchResult) : Nat × Option HealthPayload :=
  if online = false then (errorCount, none)
  else match apiKey with
    | none => (errorCount, none)
    | some _ =>
      let payload : HealthPayload :=
        { extensionVersion := version, platform := platform, arch := arch,
          errorsEncountered := errorCount, timestamp := now }
      match r with
      | .response _ => (0, some payload)
      | .netError => (errorCount, some payload)

-- ============================================
-- Sync Engine pass (syncManager.js, modelled from the spec)
-- ============================================

/-- Modelled from the spec: the Sync Engine's outcome classification.  The
engine itself lives in `syncManager.js`, which `src/background.js` imports
but which is absent from the provided sources; per the spec, success is 2xx,
a transient failure is HTTP 429, HTTP ≥ 500 or any network-level exception,
and everything else (4xx other than 429) is permanent. -/
def isSuccess : FetchResult → Bool
  | .response c => decide (200 ≤ c ∧ c < 300)
  | .netError => false

/-- Modelled from the spec: transient-failure test of the Sync Engine
(`syncManager.js`, absent from the provided sources). -/
def isTransient : FetchResult → Bool
  | .response c => decide (c = 429 ∨ 500 ≤ c)
  | .netError => true

/-- Modelled from the spec: one item-by-item sweep of the Sync Engine
(`syncManager.js`, absent from the provided sources) over the buffer
snapshot.  A success is marked completed; a transient failure stops the pass
immediately, retaining the failing item and everything after it; a permanent
failure is marked completed anyway (dropped) and counted.  Returns the
retained entries, the count of permanent failures, and whether a transient
failure was hit. -/
def processBuffer (deliver : LogEntry → FetchResult) :
    List LogEntry → List LogEntry × Nat × Bool
  | [] => ([], 0, false)
  | l :: rest =>
    if isTransient (deliver l) then (l :: rest, 0, true)
    else if isSuccess (deliver l) then processBuffer deliver rest
    else
      match processBuffer deliver rest with
      | (b, p, t) => (b, p + 1, t)

/-- Process-wide counters of the Sync Engine together with the persisted
buffer. -/
structure SyncState where
  buffer : List LogEntry
  attempt : Nat
  errorCount : Nat
deriving DecidableEq, Repr

/-- Modelled from the spec: a whole pass of the Sync Engine
(`syncManager.js`, absent from the provided sources).  The preconditions
(connectivity, credential, non-empty buffer) abort the pass as a no-op;
otherwise completed indices are removed in one batch, `errorCount` grows by
the number of permanent failures, a transient failure schedules a whole-pass
retry (the boolean in the result) and increments the attempt counter, and a
pass with zero transient failures resets the attempt counter to 0. -/
def syncPass (deliver : LogEntry → FetchResult) (online hasKey : Bool)
    (s : SyncState) : SyncState × Bool :=
  if online = false || hasKey = false || s.buffer.isEmpty then (s, false)
  else
    match processBuffer deliver s.buffer with
    | (retained, perms, hitTransient) =>
      ({ buffer := retained,
         attempt := if hitTransient then s.attempt + 1 else 0,
         errorCount := s.errorCount + perms }, hitTransient)

/-- Modelled from the spec: `forceSync` of the Sync Engine (`syncManager.js`,
absent from the provided sources): finalize the active Session first so the
in-flight elapsed time is captured into the buffer, reset the attempt counter
to 0, then run a pass immediately on the updated buffer.  The session's entry
reaches the buffer through the Buffer Store's merge-aware append.  The
returned list is the buffer snapshot the pass processed. -/
def forceSync (deliver : LogEntry → FetchResult) (ed : String → Option String)
    (redact : String → String) (blocked : List String) (now : Nat)
    (online hasKey : Bool) (sess : SessionState) (s : SyncState) :
    SessionState × List LogEntry × SyncState × Bool :=
  let fin := endSession ed redact blocked now sess
  let snapshot :=
    match fin.2 with
    | some e => appendLogToStorage now s.buffer e
    | none => s.buffer
  let run := syncPass deliver online hasKey
    { buffer := snapshot, attempt := 0, errorCount := s.errorCount }
  (fin.1, snapshot, run.1, run.2)

-- ============================================
-- Concrete material for the closed instances below
-- ============================================

/-- Concrete stand-in for `extractDomain`: every url parses to host
`a.com`. -/
def sampleEd : String → Option String := fun _ => some "a.com"

/-- Concrete stand-in for `redactSensitiveUrl` when no query parameter is
sensitive: the url is returned unchanged. -/
def sampleRedact : String → String := fun u => u

/-- An active session on `http://a.com/` whose activity clock started at 0. -/
def sampleState : SessionState :=
  { currentTabId := some 1, currentUrl := "http://a.com/", title := "",
    description := "", lastActiveTime := 0 }

/-- The entry `endSession` emits from `sampleState` at clock 10000 (a
10-second visit). -/
def sampleEntry : LogEntry :=
  { url := "http://a.com/", domain := some "a.com", title := "",
    description := "", startTime := 0, endTime := 10000, duration := 10,
    timestamp := 10000 }

/-- A buffered entry for `http://b.com/`. -/
def entryB : LogEntry :=
  { url := "http://b.com/", domain := some "b.com", title := "",
    description := "", startTime := 0, endTime := 7000, duration := 7,
    timestamp := 7000 }

/-- A buffered entry for `http://c.com/`. -/
def entryC : LogEntry :=
  { url := "http://c.com/", domain := some "c.com", title := "",
    description := "", startTime := 0, endTime := 8000, duration := 8,
    timestamp := 8000 }

/-- A 10-second session entry on `http://a.com/`. -/
def entryA10 : LogEntry :=
  { url := "http://a.com/", domain := some "a.com", title := "",
    description := "", startTime := 1000, endTime := 11000, duration := 10,
    timestamp := 11000 }

/-- A later 20-second session entry on the same url. -/
def entryA20 : LogEntry :=
  { url := "http://a.com/", domain := some "a.com", title := "T",
    description := "", startTime := 20000, endTime := 40000, duration := 20,
    timestamp := 40000 }

/-- Delivery oracle: `http://a.com/` is accepted with HTTP 200, every other
entry answers HTTP 500. -/
def deliverA200 : LogEntry → FetchResult :=
  fun e => if e.url = "http://a.com/" then .response 200 else .response 500

/-- Delivery oracle: every request is rejected with HTTP 401. -/
def deliver401 : LogEntry → FetchResult := fun _ => .response 401

-- ============================================
-- Helper lemmas
-- ============================================

theorem mergeEntry_url (now : Nat) (e log : LogEntry) :
    (mergeEntry now e log).url = e.url := rfl

theorem appendLog_mem_url (now : Nat) :
    ∀ (logs : List LogEntry) (log : LogEntry) (u : String),
      u ∈ (appendLogToStorage now logs log).map (·.url) →
      u ∈ logs.map (·.url) ∨ u = log.url
  | [], log, u, h => by
    simp [appendLogToStorage] at h
    exact Or.inr h
  | l :: rest, log, u, h => by
    by_cases hl : l.url = log.url
    · simp only [appendLogToStorage, if_pos hl, List.map_cons, List.mem_cons,
        mergeEntry_url] at h
      rcases h with h | h
      · exact Or.inl (by simp [h])
      · exact Or.inl (by simp [h])
    · simp only [appendLogToStorage, if_neg hl, List.map_cons, List.mem_cons] at h
      rcases h with h | h
      · exact Or.inl (by simp [h])
      · rcases appendLog_mem_url now rest log u h with h2 | h2
        · exact Or.inl (by simp [h2])
        · exact Or.inr h2

theorem appendLog_self_mem (now : Nat) :
    ∀ (logs : List LogEntry) (log : LogEntry),
      log.url ∈ (appendLogToStorage now logs log).map (·.url)
  | [], log => by simp [appendLogToStorage]
  | l :: rest, log => by
    by_cases hl : l.url = log.url
    · simp [appendLogToStorage, hl, mergeEntry_url]
    · simp only [appendLogToStorage, if_neg hl, List.map_cons, List.mem_cons]
      exact Or.inr (appendLog_self_mem now rest log)

theorem appendLog_nodup (now : Nat) :
    ∀ (logs : List LogEntry) (log : LogEntry),
      uniqueUrls logs → uniqueUrls (appendLogToStorage now logs log)
  | [], log, _ => by simp [uniqueUrls, appendLogToStorage]
  | l :: rest, log, h => by
    have h0 : (l.url :: rest.map (·.url)).Nodup := h
    have h' := List.nodup_cons.mp h0
    by_cases hl : l.url = log.url
    · simpa [uniqueUrls, appendLogToStorage, hl, mergeEntry_url] using h
    · have ih := appendLog_nodup now rest log h'.2
      simp only [uniqueUrls, appendLogToStorage, if_neg hl, List.map_cons]
      refine List.nodup_cons.mpr ⟨?_, ih⟩
      intro hmem
      rcases appendLog_mem_url now rest log l.url hmem with hc | hc
      · exact h'.1 hc
      · exact hl hc

theorem removeEntries_sublist (idxs : List Nat) (logs : List LogEntry) :
    List.Sublist (removeEntries idxs logs) logs := by
  have h1 : List.Sublist (logs.enum.filter fun p => ¬ idxs.contains p.1) logs.enum :=
    List.filter_sublist _
  have h2 := h1.map Prod.snd
  rw [List.enum_map_snd] at h2
  simpa [removeEntries] using h2

theorem uniqueUrls_of_sublist {l₁ l₂ : List LogEntry}
    (h : List.Sublist l₁ l₂) (h2 : uniqueUrls l₂) : uniqueUrls l₁ :=
  h2.sublist (h.map (·.url))

theorem isSuccess_not_transient {r : FetchResult} (h : isSuccess r = true) :
    isTransient r = false := by
  cases r with
  | response c =>
    simp [isSuccess] at h
    simp [isTransient]
    omega
  | netError => simp [isSuccess] at h

theorem calculateBackoff_eq (attempt : Nat) (baseMs maxMs u : ℚ) :
    calculateBackoff attempt baseMs maxMs u =
      roundJS (min (baseMs * 2 ^ attempt) maxMs +
        min (baseMs * 2 ^ attempt) maxMs * (1 / 10) * (u * 2 - 1)) := rfl

theorem syncPass_attempt (deliver : LogEntry → FetchResult)
    (online hasKey : Bool) (buf : List LogEntry) (ec : Nat) :
    (syncPass deliver online hasKey { buffer := buf, attempt := 0, errorCount := ec }).1.attempt =
      (if (syncPass deliver online hasKey { buffer := buf, attempt := 0, errorCount := ec }).2
       then 1 else 0) := by
  rcases hpb : processBuffer deliver buf with ⟨retained, perms, t⟩
  by_cases hc : (online = false ∨ hasKey = false) ∨ buf = []
  · simp [syncPass, hc]
  · cases t <;> simp [syncPass, hpb, hc]

-- ============================================
-- Claim theorems
-- ============================================

/-- C1 (counterexample): the buffer does NOT hold at most one entry per
distinct url after appends from session finalization.  `endSession` persists
through `bufferManager.addEntry`, which pushes without merging: appending the
very entry a 10-second visit to `http://a.com/` emits, to a buffer that
already holds an entry for that url, yields two entries with the same url. -/
theorem addEntry_duplicate_url_cex :
    (endSession sampleEd sampleRedact [] 10000 sampleState).2 = some sampleEntry ∧
    addEntry false [sampleEntry] sampleEntry = [sampleEntry, sampleEntry] ∧
    ¬ uniqueUrls (addEntry false [sampleEntry] sampleEntry) := by
  refine ⟨by decide, rfl, by decide⟩

/-- C1 (amended): the at-most-one-entry-per-url invariant is preserved by the
merge-aware append `appendLogToStorage`, by index-based removal, and by the
quota purge — but not by `bufferManager.addEntry`, the append the session
tracker actually uses, which pushes without merging. -/
theorem buffer_unique_url_operations :
    (∀ (now : Nat) (logs : List LogEntry) (log : LogEntry),
        uniqueUrls logs → uniqueUrls (appendLogToStorage now logs log)) ∧
    (∀ (idxs : List Nat) (logs : List LogEntry),
        uniqueUrls logs → uniqueUrls (removeEntries idxs logs)) ∧
    (∀ (oq : Bool) (logs : List LogEntry),
        uniqueUrls logs → uniqueUrls (checkAndPurgeStorage oq logs)) := by
  refine ⟨fun now logs log h => appendLog_nodup now logs log h,
    fun idxs logs h => uniqueUrls_of_sublist (removeEntries_sublist idxs logs) h,
    fun oq logs h => ?_⟩
  unfold checkAndPurgeStorage
  split_ifs
  · exact uniqueUrls_of_sublist (List.drop_sublist _ _) h
  · exact h

/-- Closed instance of the amended C1 theorem. -/
theorem buffer_unique_url_operations_witness :
    uniqueUrls [sampleEntry] ∧
    uniqueUrls (appendLogToStorage 99 [sampleEntry] sampleEntry) :=
  ⟨by decide, buffer_unique_url_operations.1 99 [sampleEntry] sampleEntry (by decide)⟩

/-- C4: appending over `appendLogToStorage` onto a buffer whose first
same-url entry is `e` (no earlier entry shares the url) replaces `e` in place
by the merge and touches nothing else; the merge sums durations, keeps the
earliest `startTime` and the latest `endTime` (both nonzero, as every entry
built by `endSession` from a positive clock has), stamps `timestamp` with the
current clock, and backfills `title`/`description` only where the existing
field is empty.  When no entry shares the url, the new entry goes to the
tail. -/
theorem appendLog_merge_rule :
    (∀ (now : Nat) (pre post : List LogEntry) (e log : LogEntry),
        e.url = log.url → (∀ l ∈ pre, l.url ≠ log.url) →
        e.startTime ≠ 0 → log.startTime ≠ 0 → e.endTime ≠ 0 → log.endTime ≠ 0 →
        appendLogToStorage now (pre ++ e :: post) log =
          pre ++ mergeEntry now e log :: post ∧
        (mergeEntry now e log).duration = e.duration + log.duration ∧
        (mergeEntry now e log).startTime = min e.startTime log.startTime ∧
        (mergeEntry now e log).endTime = max e.endTime log.endTime ∧
        (mergeEntry now e log).timestamp = now ∧
        (mergeEntry now e log).title =
          (if e.title = "" ∧ log.title ≠ "" then log.title else e.title) ∧
        (mergeEntry now e log).description =
          (if e.description = "" ∧ log.description ≠ "" then log.description
           else e.description)) ∧
    (∀ (now : Nat) (logs : List LogEntry) (log : LogEntry),
        (∀ l ∈ logs, l.url ≠ log.url) →
        appendLogToStorage now logs log = logs ++ [log]) := by
  constructor
  · intro now pre post e log hurl hpre hs1 hs2 he1 he2
    refine ⟨?_, rfl, ?_, ?_, rfl, rfl, rfl⟩
    · induction pre with
      | nil => simp [appendLogToStorage, hurl]
      | cons p pre ih =>
        have hp : p.url ≠ log.url := hpre p (by simp)
        simp only [List.cons_append, appendLogToStorage, if_neg hp]
        exact congrArg (fun t => p :: t) (ih (fun l hl => hpre l (by simp [hl])))
    · show (if log.startTime ≠ 0 ∧ (e.startTime = 0 ∨ log.startTime < e.startTime)
          then log.startTime else e.startTime) = min e.startTime log.startTime
      split_ifs with h <;> omega
    · show (if log.endTime ≠ 0 ∧ (e.endTime = 0 ∨ e.endTime < log.endTime)
          then log.endTime else e.endTime) = max e.endTime log.endTime
      split_ifs with h <;> omega
  · intro now logs log
    induction logs with
    | nil => intro _; rfl
    | cons l rest ih =>
      intro h
      have hl : l.url ≠ log.url := h l (by simp)
      simp only [appendLogToStorage, if_neg hl, List.cons_append]
      rw [ih (fun x hx => h x (by simp [hx]))]

/-- Closed instance of C4: a 10-second and a 20-second session on
`http://a.com/` merge into a single entry of duration 30 with the earliest
start and the latest end. -/
theorem appendLog_merge_rule_witness :
    appendLogToStorage 50000 [entryA10] entryA20 =
      [mergeEntry 50000 entryA10 entryA20] ∧
    (mergeEntry 50000 entryA10 entryA20).duration = 30 ∧
    (mergeEntry 50000 entryA10 entryA20).startTime = 1000 ∧
    (mergeEntry 50000 entryA10 entryA20).endTime = 40000 := by
  have h := appendLog_merge_rule.1 50000 [] [] entryA10 entryA20 rfl
    (by simp) (by decide) (by decide) (by decide) (by decide)
  exact ⟨h.1, h.2.1, h.2.2.1, h.2.2.2.1⟩

/-- C9: when the HTML-stripped, whitespace-normalized text is longer than
`maxLength`, `sanitizeText` returns its first `maxLength` characters followed
by `"..."` — a string of length `maxLength + 3`, so the truncation overshoots
the cap (a "length-capped" 200-character title is 203 characters); when the
normalized text fits, it is returned unchanged; a `null` or empty input
yields `""`. -/
theorem sanitizeText_truncation :
    (∀ (t : String) (m : Nat), m < (normalizeChars t.data).length →
        sanitizeText (some t) m =
          String.mk ((normalizeChars t.data).take m ++ "...".data) ∧
        (sanitizeText (some t) m).length = m + 3) ∧
    (∀ (t : String) (m : Nat), (normalizeChars t.data).length ≤ m →
        sanitizeText (some t) m = String.mk (normalizeChars t.data)) ∧
    (∀ m, sanitizeText none m = "" ∧ sanitizeText (some "") m = "") := by
  refine ⟨?_, ?_, fun m => ⟨rfl, rfl⟩⟩
  · intro t m h
    have ht : t ≠ "" := by
      intro h0
      rw [h0] at h
      simp [normalizeChars, stripHtml, stripHtmlAux, collapseWsAux, trimWs] at h
    constructor
    · simp [sanitizeText, ht, h]
    · simp only [sanitizeText, if_neg ht, if_pos h]
      show ((normalizeChars t.data).take m ++ "...".data).length = m + 3
      rw [List.length_append, List.length_take]
      have : "...".data.length = 3 := rfl
      omega
  · intro t m h
    by_cases ht : t = ""
    · rw [ht]
      have h0 : normalizeChars ("" : String).data = [] := rfl
      rw [h0]
      rfl
    · simp [sanitizeText, ht, Nat.not_lt.mpr h]

/-- Closed instance of C9: an 8-character title capped at 5 comes back with
length 8 = 5 + 3, and a short title is returned normalized. -/
theorem sanitizeText_truncation_witness :
    (sanitizeText (some "abcdefgh") 5).length = 5 + 3 ∧
    sanitizeText (some "ab") 5 = String.mk (normalizeChars "ab".data) :=
  ⟨(sanitizeText_truncation.1 "abcdefgh" 5 (by decide)).2,
   sanitizeText_truncation.2.1 "ab" 5 (by decide)⟩

/-- C5: `endSession` emits a log entry exactly when the tracked url is
present (non-empty), the url is http(s) (the code's check: it starts with
`"http"`), the elapsed time reaches the `MIN_DURATION` floor, and the
extracted domain is not blacklisted; in every case the tracker resets to the
idle state.  Concretely, with `MIN_DURATION = 5`, a 3-second visit to
`http://a.com/` emits nothing and a 6-second visit emits an entry. -/
theorem endSession_emission_condition :
    (∀ (ed : String → Option String) (redact : String → String)
        (blocked : List String) (now : Nat) (s : SessionState),
        ((endSession ed redact blocked now s).2.isSome = true ↔
          (s.currentUrl ≠ "" ∧ startsWithHttp s.currentUrl = true ∧
           MIN_DURATION * 1000 ≤ now - s.lastActiveTime ∧
           isBlacklistedDomain blocked (ed s.currentUrl) = false)) ∧
        (endSession ed redact blocked now s).1 = resetState now) ∧
    MIN_DURATION = 5 ∧
    (endSession sampleEd sampleRedact [] 3000 sampleState).2 = none ∧
    ((endSession sampleEd sampleRedact [] 6000 sampleState).2).isSome = true := by
  refine ⟨?_, rfl, by decide, by decide⟩
  intro ed redact blocked now s
  constructor
  · unfold endSession
    dsimp only
    split_ifs with h1 h2
    · simp only [Option.isSome_none, Bool.false_eq_true, false_iff]
      intro hc
      rcases h1 with h | h | h
      · exact hc.1 h
      · omega
      · rw [hc.2.1] at h
        simp at h
    · simp only [Option.isSome_none, Bool.false_eq_true, false_iff]
      intro hc
      rw [hc.2.2.2] at h2
      simp at h2
    · simp only [Option.isSome_some, true_iff]
      push_neg at h1
      refine ⟨h1.1, by simpa using h1.2.2, by omega, by simpa using h2⟩
  · unfold endSession
    dsimp only
    split_ifs <;> rfl

/-- C10: a session whose url yields no usable domain is never persisted:
`isBlacklistedDomain` answers `true` for a `null` (`none`) domain — which is
what `extractDomain` produces for an unparseable url — and for an empty
domain, so the blacklist branch of `endSession` swallows such sessions, and
every emitted entry carries a non-empty domain (for any domain extractor
whatsoever). -/
theorem emitted_entry_domain :
    (∀ blocked : List String,
        isBlacklistedDomain blocked none = true ∧
        isBlacklistedDomain blocked (some "") = true) ∧
    (∀ (ed : String → Option String) (redact : String → String)
        (blocked : List String) (now : Nat) (s : SessionState) (e : LogEntry),
        (endSession ed redact blocked now s).2 = some e →
        ∃ d, e.domain = some d ∧ d ≠ "") := by
  refine ⟨fun blocked => ⟨rfl, rfl⟩, ?_⟩
  intro ed redact blocked now s e h
  unfold endSession at h
  dsimp only at h
  split_ifs at h with h1 h2
  have he : e.domain = ed s.currentUrl := by
    cases h
    rfl
  cases hd : ed s.currentUrl with
  | none =>
    rw [hd] at h2
    simp [isBlacklistedDomain] at h2
  | some d =>
    by_cases hde : d = ""
    · rw [hd, hde] at h2
      simp [isBlacklistedDomain] at h2
    · exact ⟨d, by rw [he, hd], hde⟩

/-- Closed instance of C10: the entry emitted from a 10-second visit to
`http://a.com/` carries the non-empty domain `a.com`. -/
theorem emitted_entry_domain_witness :
    ∃ d, sampleEntry.domain = some d ∧ d ≠ "" :=
  emitted_entry_domain.2 sampleEd sampleRedact [] 10000 sampleState sampleEntry
    (by decide)

/-- C6 (counterexample): the computed delay can exceed the configured
maximum.  The jitter is applied to the already-capped delay, so at attempt 3
with the default base 60000 ms and cap 300000 ms, a random draw of 3/4 gives
round(300000 + 300000·0.1·0.5) = 315000 > 300000; the same value also falls
outside the claimed band [0.9·60000·2³, 1.1·60000·2³] = [432000, 528000]. -/
theorem calculateBackoff_cap_cex :
    calculateBackoff 3 60000 300000 (3 / 4) = 315000 ∧
    ¬ (calculateBackoff 3 60000 300000 (3 / 4) ≤ 300000) ∧
    ¬ ((9 / 10 : ℚ) * (60000 * 2 ^ 3) ≤ (calculateBackoff 3 60000 300000 (3 / 4) : ℚ)) := by
  have h : calculateBackoff 3 60000 300000 (3 / 4) = 315000 := by
    rw [calculateBackoff_eq]
    unfold roundJS
    rw [min_def]
    norm_num
  refine ⟨h, by rw [h]; decide, by rw [h]; norm_num⟩

/-- C6 (amended): for every attempt `n` and random draw `u ∈ [0, 1]`, the
delay lies within ±10 % (plus the half-unit of rounding) of the CAPPED value
`min(base·2^n, cap)`: it is the spec's band around `base·2^n` only while
`base·2^n ≤ cap`, and in particular the rounded delay can exceed the cap by
up to 10 %. -/
theorem calculateBackoff_band (n : Nat) (base cap u : ℚ)
    (hbase : 0 ≤ base) (hcap : 0 ≤ cap) (hu0 : 0 ≤ u) (hu1 : u ≤ 1) :
    9 / 10 * min (base * 2 ^ n) cap - 1 / 2 ≤ (calculateBackoff n base cap u : ℚ) ∧
    (calculateBackoff n base cap u : ℚ) ≤ 11 / 10 * min (base * 2 ^ n) cap + 1 / 2 := by
  have hd : (0 : ℚ) ≤ min (base * 2 ^ n) cap := le_min (by positivity) hcap
  rw [calculateBackoff_eq]
  unfold roundJS
  set d := min (base * 2 ^ n) cap with hdd
  have hj1 : d * (1 / 10) * (u * 2 - 1) ≤ d * (1 / 10) := by nlinarith
  have hj2 : -(d * (1 / 10)) ≤ d * (1 / 10) * (u * 2 - 1) := by nlinarith
  constructor
  · have hfl := Int.sub_one_lt_floor (d + d * (1 / 10) * (u * 2 - 1) + 1 / 2)
    nlinarith [hfl]
  · have hfl := Int.floor_le (d + d * (1 / 10) * (u * 2 - 1) + 1 / 2)
    nlinarith [hfl]

/-- Closed instance of the amended C6 theorem at attempt 0 with the default
base and cap and the median random draw. -/
theorem calculateBackoff_band_witness :
    9 / 10 * min ((60000 : ℚ) * 2 ^ 0) 300000 - 1 / 2 ≤
      (calculateBackoff 0 60000 300000 (1 / 2) : ℚ) ∧
    (calculateBackoff 0 60000 300000 (1 / 2) : ℚ) ≤
      11 / 10 * min ((60000 : ℚ) * 2 ^ 0) 300000 + 1 / 2 :=
  calculateBackoff_band 0 60000 300000 (1 / 2) (by norm_num) (by norm_num)
    (by norm_num) (by norm_num)

/-- C8: behaviour of `sendHealthPing` at the failing input.  With
`errorCount = 7`, a health POST answered with HTTP 500 — a failed report —
still resets `errorCount` to 0, because the code never inspects
`response.ok`; only a network-level exception (a rejected `fetch`) leaves it
unchanged.  The payload sent carries exactly
{extensionVersion, platform, arch, errorsEncountered, timestamp}, and at
most one request is issued per invocation (no retry exists in the code). -/
theorem sendHealthPing_reset_on_500 :
    sendHealthPing true (some "key") "1.0.0" "linux" "x64" 111 7 (.response 500) =
      (0, some { extensionVersion := "1.0.0", platform := "linux", arch := "x64",
                 errorsEncountered := 7, timestamp := 111 }) ∧
    (sendHealthPing true (some "key") "1.0.0" "linux" "x64" 111 7 .netError).1 = 7 := by
  decide

/-- C2: a pass over buffer [A, B, C] in which A is delivered successfully
(2xx) and B hits a transient failure (HTTP 429, HTTP ≥ 500 or a network
exception) stops immediately: the buffer afterwards is exactly [B, C], a
whole-pass retry is scheduled (the flag in the result), and the attempt
counter is the previous value plus one. -/
theorem syncPass_transient_tail (deliver : LogEntry → FetchResult)
    (A B C : LogEntry) (n ec : Nat)
    (hA : isSuccess (deliver A) = true) (hB : isTransient (deliver B) = true) :
    syncPass deliver true true { buffer := [A, B, C], attempt := n, errorCount := ec } =
      ({ buffer := [B, C], attempt := n + 1, errorCount := ec }, true) := by
  have hA' : isTransient (deliver A) = false := isSuccess_not_transient hA
  simp [syncPass, processBuffer, hA, hA', hB]

/-- Closed instance of C2: A answered 200, B answered 500. -/
theorem syncPass_transient_tail_witness :
    syncPass deliverA200 true true
        { buffer := [sampleEntry, entryB, entryC], attempt := 4, errorCount := 2 } =
      ({ buffer := [entryB, entryC], attempt := 5, errorCount := 2 }, true) :=
  syncPass_transient_tail deliverA200 sampleEntry entryB entryC 4 2
    (by decide) (by decide)

/-- C3: a pass over buffer [A] in which A is rejected with a permanent
failure (4xx other than 429, neither a success nor transient) drops the item
after the single attempt — the buffer afterwards is empty — increments
`errorCount` by one and schedules no retry (and the attempt counter resets
to 0, the pass having seen no transient failure). -/
theorem syncPass_permanent_drop (deliver : LogEntry → FetchResult)
    (A : LogEntry) (n ec : Nat)
    (h1 : isSuccess (deliver A) = false) (h2 : isTransient (deliver A) = false) :
    syncPass deliver true true { buffer := [A], attempt := n, errorCount := ec } =
      ({ buffer := [], attempt := 0, errorCount := ec + 1 }, false) := by
  simp [syncPass, processBuffer, h1, h2]

/-- Closed instance of C3: A answered 401. -/
theorem syncPass_permanent_drop_witness :
    syncPass deliver401 true true
        { buffer := [sampleEntry], attempt := 4, errorCount := 2 } =
      ({ buffer := [], attempt := 0, errorCount := 3 }, false) :=
  syncPass_permanent_drop deliver401 sampleEntry 4 2 (by decide) (by decide)

/-- C7: every invocation of `forceSync` finalizes the active session first
(the session afterwards is the idle reset state, and when the session emits
an entry the snapshot the pass processes is the buffer with that entry
merged in, so the in-flight time is captured before syncing); the pass runs
immediately on that snapshot with the attempt counter reset to 0 — after the
call the counter is 1 when the pass scheduled a retry and 0 otherwise,
whatever its previous value. -/
theorem forceSync_behavior (deliver : LogEntry → FetchResult)
    (ed : String → Option String) (redact : String → String)
    (blocked : List String) (now : Nat) (online hasKey : Bool)
    (sess : SessionState) (s : SyncState) :
    (forceSync deliver ed redact blocked now online hasKey sess s).1 =
      resetState now ∧
    (∀ e, (endSession ed redact blocked now sess).2 = some e →
        (forceSync deliver ed redact blocked now online hasKey sess s).2.1 =
          appendLogToStorage now s.buffer e ∧
        e.url ∈ ((forceSync deliver ed redact blocked now online hasKey sess s).2.1.map
          (·.url))) ∧
    ((endSession ed redact blocked now sess).2 = none →
        (forceSync deliver ed redact blocked now online hasKey sess s).2.1 = s.buffer) ∧
    (forceSync deliver ed redact blocked now online hasKey sess s).2.2.1.attempt =
      (if (forceSync deliver ed redact blocked now online hasKey sess s).2.2.2
       then 1 else 0) ∧
    ((forceSync deliver ed redact blocked now online hasKey sess s).2.2.1,
      (forceSync deliver ed redact blocked now online hasKey sess s).2.2.2) =
      syncPass deliver online hasKey
        { buffer := (forceSync deliver ed redact blocked now online hasKey sess s).2.1,
          attempt := 0, errorCount := s.errorCount } := by
  have hend : (endSession ed redact blocked now sess).1 = resetState now := by
    unfold endSession
    dsimp only
    split_ifs <;> rfl
  refine ⟨?_, ?_, ?_, ?_, ?_⟩
  · simpa [forceSync] using hend
  · intro e he
    have h2 : (forceSync deliver ed redact blocked now online hasKey sess s).2.1 =
        appendLogToStorage now s.buffer e := by simp [forceSync, he]
    rw [h2]
    exact ⟨rfl, appendLog_self_mem now s.buffer e⟩
  · intro he
    simp [forceSync, he]
  · cases he : (endSession ed redact blocked now sess).2 with
    | none => simpa [forceSync, he] using syncPass_attempt deliver online hasKey s.buffer s.errorCount
    | some e =>
      simpa [forceSync, he] using
        syncPass_attempt deliver online hasKey (appendLogToStorage now s.buffer e) s.errorCount
  · cases he : (endSession ed redact blocked now sess).2 with
    | none => simp [forceSync, he]
    | some e => simp [forceSync, he]

/-- Closed instance of C7: forcing a sync while a 10-second visit to
`http://a.com/` is still in flight finalizes it — the session resets and the
entry lands in the processed snapshot — and the pass runs with the attempt
counter reset from 9 to 0 (to 1 would the pass hit a transient failure; the
401 here is permanent, so it ends at 0). -/
theorem forceSync_behavior_witness :
    (forceSync deliver401 sampleEd sampleRedact [] 10000 true true sampleState
        { buffer := [], attempt := 9, errorCount := 0 }).1 = resetState 10000 ∧
    (forceSync deliver401 sampleEd sampleRedact [] 10000 true true sampleState
        { buffer := [], attempt := 9, errorCount := 0 }).2.1 =
      appendLogToStorage 10000 [] sampleEntry := by
  have h := forceSync_behavior deliver401 sampleEd sampleRedact [] 10000 true true
    sampleState { buffer := [], attempt := 9, errorCount := 0 }
  exact ⟨h.1, (h.2.1 sampleEntry (by decide)).1⟩

end Echo
